import Mathlib

/-!
Shallow embedding of the WD-Bridge remote session and transfer engine
(src/unnamed/part_000, the API module, and src/index.js, the shell), for
checking the natural-language specification against the code.

JavaScript values that may be `undefined` are modelled as `Option`;
a JavaScript runtime exception (TypeError on reading a property of
`undefined`, ReferenceError on reading an undeclared variable) is
modelled with `Except JsError`.  The callback-driven asynchronous code
is single-threaded and cooperative, so every operation is embedded as a
pure state-passing function; network responses are supplied as explicit
inputs (the status code, the parsed body, the transport error) in the
shape the `request` library hands to its callbacks.
-/

/-- A JavaScript runtime exception raised inside a callback. -/
inductive JsError where
  /-- TypeError: cannot read a property of `undefined`
      (e.g. `response.statusCode` when `response` is `undefined`). -/
  | typeError
  /-- ReferenceError: an undeclared variable was read. -/
  | referenceError
deriving DecidableEq, Repr

/-! ## Virtual path stack (part_000 lines 25, 435-474)

`pathStack` is a JS array of folder id strings with the top at the end. -/

/-- part_000 lines 435-438: `enterDirectory(folderID)` — push, no-op when
the argument is `undefined`. -/
def enterDirectory (folderID : Option String) (pathStack : List String) : List String :=
  match folderID with
  | none => pathStack
  | some id => pathStack ++ [id]

/-- part_000 lines 452-456: `enterParentDirectory()` — pop the last entry
if there is one; returns the new stack and whether a pop occurred. -/
def enterParentDirectory (pathStack : List String) : List String × Bool :=
  if pathStack.length > 0 then (pathStack.dropLast, true) else (pathStack, false)

/-- part_000 lines 461-464: `getCurrentFolder()` returns
`pathStack[pathStack.length - 1]`, or `undefined` when the stack is empty. -/
def getCurrentFolder (pathStack : List String) : Option String :=
  if h : pathStack.length > 0 then
    some (pathStack.get ⟨pathStack.length - 1, by omega⟩)
  else none

/-- part_000 lines 470-474: `removePathStackEntries(removeCount)` — pop up
to `removeCount` times, stopping early when the stack empties. -/
def removePathStackEntries (removeCount : Nat) (pathStack : List String) : List String :=
  match removeCount with
  | 0 => pathStack
  | n + 1 =>
    let r := enterParentDirectory pathStack
    if r.2 then removePathStackEntries n r.1 else r.1

/-! ## Session authenticator (part_000 lines 29, 33, 48-80, 481-488)

`tokens` holds the bearer token, `creds` the cached username and password.
The login callback receives `(error, response, body)` from the `request`
library: on a transport failure `error` is set and `response` is
`undefined`.  The code reads `response.statusCode` first, so that case is
a TypeError.  The parsed body is abstracted by its `id_token` field. -/

/-- The `creds` module-level object: cached username and password. -/
structure Creds where
  user : Option String
  pass : Option String
deriving DecidableEq, Repr

/-- The `tokens` module-level object: the bearer authorization token. -/
structure Tokens where
  auth : Option String
deriving DecidableEq, Repr

/-- part_000 lines 65-78: the body of the `login` response callback.
Input: the transport `error`, the `response` status code (`none` when the
response object is `undefined`), and the `id_token` of the parsed body.
Returns the value the promise resolves with and the updated `tokens`. -/
def login_callback (error : Option String) (response : Option Nat)
    (idToken : String) (tokens : Tokens) : Except JsError (Bool × Tokens) :=
  match response with
  | none => Except.error JsError.typeError
  | some statusCode =>
    if statusCode = 401 then Except.ok (false, tokens)
    else if error.isSome then Except.ok (false, tokens)
    else Except.ok (true, { auth := some ("Bearer " ++ idToken) })

/-- part_000 lines 481-488: `authenticate(username, password)` stores the
credentials into `creds` first and then awaits `login`.  The credential
assignment happens before the network call, so it persists even when the
login callback raises.  Returns the updated `creds` and the login result. -/
def authenticate (username password : String) (error : Option String)
    (response : Option Nat) (idToken : String) (_creds : Creds) (tokens : Tokens) :
    Creds × Except JsError (Bool × Tokens) :=
  ({ user := some username, pass := some password },
   login_callback error response idToken tokens)

/-! ## Remote operation primitives (part_000 lines 87-117, 368-386)

Each callback receives `(error, response, body)`.  The parsed body of
`ls` is abstracted by its `files` field (`none` when the field is
absent); each raw item carries `name`, `id` and `mimeType`. -/

/-- A raw item of the `files` array in the `ls` response body. -/
structure RawItem where
  name : String
  id : String
  mimeType : String
deriving DecidableEq, Repr

/-- A parsed directory entry as produced by `ls`. -/
structure RemoteEntry where
  name : String
  id : String
  isDir : Bool
deriving DecidableEq, Repr

/-- The response object handed to the `ls` callback: status code and the
`files` field of the parsed body. -/
structure LsResponse where
  statusCode : Nat
  files : Option (List RawItem)
deriving DecidableEq, Repr

/-- The tagged result record resolved by `ls`. -/
structure LsResult where
  success : Bool
  error : Option String
  session : Bool
  result : Option (List RemoteEntry)
deriving DecidableEq, Repr

/-- part_000 lines 90-115: the body of the `ls` response callback.  The
code dereferences `response.statusCode` before testing `error`, so a
transport error (where `response` is `undefined`) is a TypeError. -/
def ls_callback (error : Option String) (response : Option LsResponse) :
    Except JsError LsResult :=
  match response with
  | none => Except.error JsError.typeError
  | some r =>
    if r.statusCode = 401 then
      Except.ok { success := false, error := none, session := false, result := none }
    else if error.isSome then
      Except.ok { success := false, error := error, session := true, result := none }
    else
      match r.files with
      | none => Except.ok { success := true, error := none, session := true, result := some [] }
      | some items =>
        Except.ok { success := true, error := none, session := true,
                    result := some (items.map fun item =>
                      { name := item.name, id := item.id,
                        isDir := item.mimeType == "application/x.wd.dir" }) }

/-- The tagged result record resolved by `getFileSize`.  In the 401 branch
the source writes the field name `sucess` (a typo), so the `success` key
is absent there; the field is therefore an `Option Bool` (`none` = key
absent, which is falsy in JS). -/
structure SizeResult where
  success : Option Bool
  error : Option String
  session : Bool
  result : Option Nat
deriving DecidableEq, Repr

/-- part_000 lines 371-384: the body of the `getFileSize` response
callback; `sizeField` abstracts `JSON.parse(body).size`.  As in `ls`,
`response.statusCode` is read before `error` is tested. -/
def getFileSize_callback (error : Option String) (response : Option Nat)
    (sizeField : Nat) : Except JsError SizeResult :=
  match response with
  | none => Except.error JsError.typeError
  | some statusCode =>
    if statusCode = 401 then
      Except.ok { success := none, error := none, session := false, result := none }
    else if error.isSome then
      Except.ok { success := some false, error := error, session := true, result := none }
    else
      Except.ok { success := some true, error := none, session := true, result := some sizeField }

/-! ## Chunked transfer engine — upload (part_000 lines 308-361)

`getFileContent` is a generator reading the local file in 20480-byte
blocks; it is embedded as the list of yielded records.  `fs.readSync` at
position `p` with length `blockSize` on a file of `totalSize` bytes
returns `min blockSize (totalSize - p)` bytes.  The loop runs at most
once per byte, so `totalSize + 1` units of fuel are always enough. -/

/-- part_000 line 311: `bufferSize`, the fixed block size of the upload loop. -/
def blockSize : Nat := 20480

/-- One record yielded by the `getFileContent` generator. -/
structure Chunk where
  bytesRead : Nat
  currentOffset : Nat
  isDone : Bool
deriving DecidableEq, Repr

/-- part_000 lines 314-321: the generator loop.  `isDone` is true exactly
when fewer bytes than `blockSize` were read; the loop breaks after
yielding a done block, otherwise advances the offset. -/
def getFileContentAux (fuel totalSize currentOffset : Nat) : List Chunk :=
  match fuel with
  | 0 => []
  | fuel + 1 =>
    if currentOffset ≥ totalSize then []
    else
      let bytesRead := min blockSize (totalSize - currentOffset)
      if bytesRead = blockSize then
        { bytesRead := bytesRead, currentOffset := currentOffset, isDone := false } ::
          getFileContentAux fuel totalSize (currentOffset + bytesRead)
      else
        [{ bytesRead := bytesRead, currentOffset := currentOffset, isDone := true }]

/-- part_000 lines 308-322: `getFileContent` on a file of `totalSize` bytes. -/
def getFileContent (totalSize : Nat) : List Chunk :=
  getFileContentAux (totalSize + 1) totalSize 0

/-- An observable event of the chunked upload loop `uploadManual`:
a progress-callback invocation, a chunk PUT (with its `offset` and `done`
query parameters and whether the server accepted it), or a
done-callback invocation. -/
inductive UpEv where
  | progress (offset : Nat)
  | putEv (offset : Nat) (done : Bool) (ok : Bool)
  | doneEv (success : Bool)
deriving DecidableEq, Repr

/-- part_000 lines 331-361: `uploadManual`, as the trace of its events.
`putOk i` tells whether the i-th chunk PUT succeeds.  Per iteration the
code fires `progressCallback(currentOffset)` BEFORE awaiting the PUT;
a failed PUT fires the done callback with the failure and breaks; a
successful PUT of a done chunk fires the done callback with success. -/
def uploadManualRun : List Chunk → (Nat → Bool) → List UpEv
  | [], _ => []
  | c :: cs, putOk =>
    UpEv.progress c.currentOffset ::
    UpEv.putEv c.currentOffset c.isDone (putOk 0) ::
    (if putOk 0 then
      (if c.isDone then
        UpEv.doneEv true :: uploadManualRun cs (fun i => putOk (i + 1))
      else
        uploadManualRun cs (fun i => putOk (i + 1)))
    else [UpEv.doneEv false])

/-- The all-successful PUT script. -/
def allOk : Nat → Bool := fun _ => true

/-- True when the event is a chunk PUT carrying `done=true`. -/
def isDoneTruePut : UpEv → Bool
  | UpEv.putEv _ true _ => true
  | _ => false

/-- True when the event is a done-callback invocation (`uploadManual`
settles the upload promise of `_uploadFile` only through this callback). -/
def isDoneEv : UpEv → Bool
  | UpEv.doneEv _ => true
  | _ => false

/-- The offsets passed to the progress callback, in order. -/
def progressOffsets (evs : List UpEv) : List Nat :=
  evs.filterMap fun e =>
    match e with
    | UpEv.progress o => some o
    | _ => none

/-- Checks the claim "the progress callback is invoked after each
successful chunk PUT with the cumulative byte offset as of the start of
that chunk": every successful PUT of a chunk starting at offset `o` must
be followed, later in the trace, by a progress event carrying `o`. -/
def progressAfterPuts : List UpEv → Bool
  | [] => true
  | UpEv.putEv o _ true :: rest =>
    (rest.any fun e => e == UpEv.progress o) && progressAfterPuts rest
  | _ :: rest => progressAfterPuts rest

/-- Checks the code convention: every chunk PUT is immediately preceded
by a progress event carrying the starting offset of that chunk. -/
def putsPreceded : List UpEv → Bool
  | [] => true
  | UpEv.putEv _ _ _ :: _ => false
  | UpEv.progress o :: UpEv.putEv o2 _ _ :: rest => (o == o2) && putsPreceded rest
  | _ :: rest => putsPreceded rest

/-! ## Retry/re-auth supervisor (part_000 lines 493-521, 697-724)

`listFiles` runs `retryLimited(10, "list files", _listFiles, [])`.
`_listFiles` resolves the current folder from the path stack, calls the
`ls` primitive, and on a session-expiry signal awaits `authRetry`, which
re-authenticates with the cached credentials and re-invokes `_listFiles`
from its start; that replay happens INSIDE the same `callAbstracted`
invocation of the supervisor.

The network is supplied as a script: the outcome handed to each
successive `ls` call.  An outcome is a success with data, a genuine
failure (`error` set, `session` true), or a session expiry
(`session` false). -/

/-- The outcome of one `ls` primitive call, as `_listFiles` observes it. -/
inductive PrimOutcome where
  | ok (data : List RemoteEntry)
  | err
  | expired
deriving DecidableEq, Repr

/-- An observable event of a supervised run: an `ls` primitive call with
the folder id `_listFiles` resolved from the stack, or a
re-authentication performed by `authRetry` with the cached credentials. -/
inductive Ev where
  | lsCall (folderId : String)
  | authEv (user pass : String)
deriving DecidableEq, Repr

/-- part_000 line 505: the current path used by `_listFiles`, namely
`pathStack.length > 0 ? pathStack[pathStack.length - 1] : root`. -/
def currentPath (pathStack : List String) : String :=
  match getCurrentFolder pathStack with
  | some p => p
  | none => "root"

/-- part_000 lines 504-521 with 720-724: one `_listFiles` invocation over
the network script.  Consumes one script entry per `ls` call; on expiry,
performs one re-authentication and re-invokes itself on the rest of the
script.  Returns the resolved record (`some data` on success, `none` on
failure), the event trace, and the unconsumed script; `none` overall when
the script is exhausted mid-run. -/
def runLF (creds : Creds) (pathStack : List String) :
    List PrimOutcome → Option (Option (List RemoteEntry) × List Ev × List PrimOutcome)
  | [] => none
  | o :: rest =>
    let p := currentPath pathStack
    match o with
    | PrimOutcome.ok d => some (some d, [Ev.lsCall p], rest)
    | PrimOutcome.err => some (none, [Ev.lsCall p], rest)
    | PrimOutcome.expired =>
      (runLF creds pathStack rest).map fun r =>
        (r.1, Ev.lsCall p :: Ev.authEv (creds.user.getD "") (creds.pass.getD "") :: r.2.1, r.2.2)

/-- part_000 lines 699-708: the recursive `callAbstracted` closure of
`retryLimited` with `tryLimit = 10`, with the debug-log guard of line 704
elided (see `runSupJs` for the faithful version of that guard).  The
counter is checked against the limit BEFORE being incremented, and a
replay caused by session expiry happens inside `abstractedFunction`, so
it never touches the counter.  Returns the final result (`some data` or
`none`), the final value of `tryCounter` (the number of attempts made),
and the event trace.  Fuel `12` is enough: each recursion increments
`tryCounter`, and the recursion stops at `tryCounter = 11`. -/
def runSup (fuel tryCounter : Nat) (creds : Creds) (pathStack : List String)
    (script : List PrimOutcome) : Option (Option (List RemoteEntry) × Nat × List Ev) :=
  match fuel with
  | 0 => none
  | fuel + 1 =>
    if tryCounter > 10 then some (none, tryCounter, [])
    else
      match runLF creds pathStack script with
      | none => none
      | some (res, evs, rest) =>
        match res with
        | some d => some (some d, tryCounter + 1, evs)
        | none =>
          (runSup fuel (tryCounter + 1) creds pathStack rest).map fun r =>
            (r.1, r.2.1, evs ++ r.2.2)

/-- The value `listFiles` settles with: the data on success, or the
thrown terminal error of part_000 line 712. -/
inductive RetryOutcome where
  | data (d : List RemoteEntry)
  | terminalError (message : String)
deriving DecidableEq, Repr

/-- part_000 lines 493-499 and 697-713: a full `listFiles` run (with the
debug-log guard elided), yielding the settled outcome, the number of
attempts made, and the event trace. -/
def listFilesRun (creds : Creds) (pathStack : List String) (script : List PrimOutcome) :
    Option (RetryOutcome × Nat × List Ev) :=
  (runSup 12 0 creds pathStack script).map fun r =>
    (match r.1 with
     | some d => RetryOutcome.data d
     | none => RetryOutcome.terminalError "tried to list files 10 times and failed",
     r.2.1, r.2.2)

/-- part_000 lines 700-704, faithful: after the counter check and the
increment, `callAbstracted` evaluates `if (attempt > 1)`, and `attempt`
is an undeclared variable, so the evaluation raises a ReferenceError
before `abstractedFunction` is ever invoked. -/
def runSupJs (tryCounter : Nat) (_script : List PrimOutcome) :
    Except JsError (Option (List RemoteEntry) × Nat) :=
  if tryCounter > 10 then Except.ok (none, tryCounter)
  else Except.error JsError.referenceError

/-- The number of re-authentications recorded in a trace. -/
def authCount (evs : List Ev) : Nat :=
  evs.countP fun e =>
    match e with
    | Ev.authEv _ _ => true
    | _ => false

/-! ## Chunked transfer engine — download (part_000 lines 395-429, 669-688)

`dwl` queries the file size, then streams a GET.  The stream is supplied
as the list of data chunk lengths.  Per data event the code appends the
chunk to the destination file, fires `progressCallback` with the offset
BEFORE adding the chunk length, and then advances the offset; the end
event resolves success.  A 401 on the response resolves the
session-invalid record (again under the field-name typo `sucess`), but
the handlers for the stream keep running. -/

/-- The value the `dwl` promise settles with (success and session flags;
in the 401 branch the `success` key is absent because of the typo). -/
structure DwlResult where
  success : Option Bool
  session : Bool
deriving DecidableEq, Repr

/-- part_000 lines 421-425: the data-event loop; returns the
`(offset, total)` pairs passed to the progress callback, one per chunk. -/
def dwlDataLoop (currentOffset totalSize : Nat) : List Nat → List (Nat × Nat)
  | [] => []
  | len :: rest => (currentOffset, totalSize) :: dwlDataLoop (currentOffset + len) totalSize rest

/-- part_000 lines 395-429: a `dwl` run.  `sizeOutcome` is the size-query
result (`none` = the query failed, which resolves that failure with no
stream activity); `statusCode` is the GET response status; `chunks` the
streamed data chunk lengths.  Returns the progress pairs, the list of
chunk lengths appended to the destination file (one `fs.appendFileSync`
per data event — for an empty stream the destination is never written,
hence never created), and the settled result. -/
def dwlRun (sizeOutcome : Option Nat) (statusCode : Nat) (chunks : List Nat) :
    List (Nat × Nat) × List Nat × Option DwlResult :=
  match sizeOutcome with
  | none => ([], [], some { success := some false, session := true })
  | some totalSize =>
    (dwlDataLoop 0 totalSize chunks, chunks,
     if statusCode = 401 then some { success := none, session := false }
     else some { success := some true, session := true })

/-- part_000 lines 670-675: the percentage mapping `_downloadFile` wraps
around the progress callback of `dwl`. -/
def dwlPercent (p : Nat × Nat) : Nat :=
  if p.2 = 0 then 100 else p.1 * 100 / p.2

/-- The percentage progress events a `_downloadFile` run reports. -/
def downloadPercents (sizeOutcome : Option Nat) (statusCode : Nat) (chunks : List Nat) :
    List Nat :=
  (dwlRun sizeOutcome statusCode chunks).1.map dwlPercent

/-! ## Recursive tree transfer (index.js lines 147-199)

`recursiveDownloadFolders` walks a remote folder tree.  The remote
filesystem is supplied as a tree: each node carries the folder id, the
folder name, and its subfolders (`listFiles` is assumed to return the
recorded entries; plain-file downloads are omitted since they touch
neither the path stack nor local directory creation).  The observable
events are pushes onto the virtual path stack (`bridge.enterDirectory`)
and local directory creations (`fs.mkdirSync`). -/

mutual
/-- A remote folder: id, name, subfolders. -/
inductive FTree where
  | node (id : String) (name : String) (subs : FTreeList)
/-- A list of remote folders (mutual with `FTree` so that all the
recursions below are structural). -/
inductive FTreeList where
  | nil
  | cons (head : FTree) (tail : FTreeList)
end

/-- The id of a folder node. -/
def treeId : FTree → String
  | FTree.node id _ _ => id

/-- The name of a folder node. -/
def treeName : FTree → String
  | FTree.node _ nm _ => nm

/-- An observable event of the recursive download: a push onto the
virtual path stack, or a local `mkdirSync`. -/
inductive DEv where
  | push (id : String)
  | mkdirL (p : String)
deriving DecidableEq, Repr

/-- index.js lines 166-169: the first loop of `downloadFolder` creates a
local directory `path.join(localPath, folder.name)` for every subfolder. -/
def mkdirEvs : FTreeList → String → List DEv
  | FTreeList.nil, _ => []
  | FTreeList.cons t rest, localPath =>
    DEv.mkdirL (localPath ++ "/" ++ treeName t) :: mkdirEvs rest localPath

mutual
/-- index.js lines 148-188: `downloadFolder(remoteFolderID, localPath)` —
push the folder id, create all local subdirectories, (download the plain
files,) then recurse into each subfolder.  No pop is ever performed. -/
def downloadFolderRun : FTree → String → List DEv
  | FTree.node id _ subs, localPath =>
    DEv.push id :: (mkdirEvs subs localPath ++ downloadSubsRun subs localPath)
/-- index.js lines 184-187: the recursion loop over the subfolders. -/
def downloadSubsRun : FTreeList → String → List DEv
  | FTreeList.nil, _ => []
  | FTreeList.cons t rest, localPath =>
    downloadFolderRun t (localPath ++ "/" ++ treeName t) ++ downloadSubsRun rest localPath
end

/-- index.js lines 190-198: `recursiveDownloadFolders(srcFolderID,
basepath)` — save `getCurrentFolder()`, push the source folder id, create
the top-level destination directory, run `downloadFolder`, and finally
`enterDirectory(currentFolderID)` (a push of the saved id; a no-op when
it was `undefined`). -/
def recursiveDownloadFoldersRun (srcTree : FTree) (basepath : String)
    (pathStack : List String) : List DEv :=
  let currentFolderID := getCurrentFolder pathStack
  DEv.push (treeId srcTree) :: DEv.mkdirL basepath :: downloadFolderRun srcTree basepath
    ++ (match currentFolderID with
        | some c => [DEv.push c]
        | none => [])

/-- Replay the push events of a trace onto a path stack
(`enterDirectory` for each push; `mkdirSync` does not touch the stack). -/
def applyDEvs (s : List String) : List DEv → List String
  | [] => s
  | DEv.push id :: rest => applyDEvs (s ++ [id]) rest
  | DEv.mkdirL _ :: rest => applyDEvs s rest

/-- The folder ids pushed by a trace, in order. -/
def pushIdsOf (evs : List DEv) : List String :=
  evs.filterMap fun e =>
    match e with
    | DEv.push id => some id
    | _ => none

/-- The local directories created by a trace, in order. -/
def mkdirPathsOf (evs : List DEv) : List String :=
  evs.filterMap fun e =>
    match e with
    | DEv.mkdirL p => some p
    | _ => none

mutual
/-- The preorder id sequence of a folder tree: the ids `downloadFolder`
pushes, in order. -/
def preorderIds : FTree → List String
  | FTree.node id _ subs => id :: preorderIdsList subs
/-- The preorder id sequences of a forest, concatenated. -/
def preorderIdsList : FTreeList → List String
  | FTreeList.nil => []
  | FTreeList.cons t rest => preorderIds t ++ preorderIdsList rest
end

/-! ## Lemmas about the path stack, the chunk generator and the upload trace -/

/-- The current folder is the last element of the stack (`undefined` when
empty): the dite over the length-1 index is exactly `getLast?`. -/
theorem getCurrentFolder_eq_getLast? (s : List String) :
    getCurrentFolder s = s.getLast? := by
  unfold getCurrentFolder
  rcases List.eq_nil_or_concat s with rfl | ⟨l, a, rfl⟩
  · simp
  · rw [dif_pos (by simp)]
    simp [List.get_eq_getElem, List.getLast?_concat]

/-- Every chunk yielded from start offset `o` has offset at least `o`. -/
theorem getFileContentAux_mem_le (fuel t : Nat) :
    ∀ (o : Nat) (c : Chunk), c ∈ getFileContentAux fuel t o → o ≤ c.currentOffset := by
  induction fuel with
  | zero => intro o c h; simp [getFileContentAux] at h
  | succ fuel ih =>
    intro o c h
    rw [getFileContentAux] at h
    by_cases ho : o ≥ t
    · rw [if_pos ho] at h; simp at h
    · rw [if_neg ho] at h
      by_cases hb : min blockSize (t - o) = blockSize
      · rw [if_pos hb] at h
        rcases List.mem_cons.mp h with rfl | h2
        · exact Nat.le_refl _
        · have := ih _ c h2
          omega
      · rw [if_neg hb] at h
        rcases List.mem_cons.mp h with rfl | h2
        · exact Nat.le_refl _
        · simp at h2

/-- The yielded offsets are non-decreasing. -/
theorem getFileContentAux_pairwise (fuel t : Nat) :
    ∀ o : Nat, (getFileContentAux fuel t o).Pairwise
      (fun a b => a.currentOffset ≤ b.currentOffset) := by
  induction fuel with
  | zero => intro o; simp [getFileContentAux]
  | succ fuel ih =>
    intro o
    rw [getFileContentAux]
    by_cases ho : o ≥ t
    · rw [if_pos ho]; exact List.Pairwise.nil
    · rw [if_neg ho]
      by_cases hb : min blockSize (t - o) = blockSize
      · rw [if_pos hb]
        refine List.pairwise_cons.mpr ⟨?_, ih _⟩
        intro c hc
        have h1 := getFileContentAux_mem_le fuel t _ c hc
        show o ≤ c.currentOffset
        omega
      · rw [if_neg hb]
        simp

/-- With enough fuel, the generated list ends with a chunk whose offset
plus bytes read equals the total size (the blocks tile the file). -/
theorem getFileContentAux_concat (fuel t : Nat) :
    ∀ o : Nat, o < t → t - o ≤ fuel →
      ∃ (l : List Chunk) (c : Chunk),
        getFileContentAux fuel t o = l ++ [c] ∧ c.currentOffset + c.bytesRead = t := by
  induction fuel with
  | zero => intro o ho hf; omega
  | succ fuel ih =>
    intro o ho hf
    have h20 : blockSize = 20480 := rfl
    rw [getFileContentAux, if_neg (by omega)]
    by_cases hb : min blockSize (t - o) = blockSize
    · rw [if_pos hb]
      by_cases h2 : o + blockSize < t
      · obtain ⟨l, c, hl, hc⟩ := ih (o + min blockSize (t - o))
          (by rw [hb]; omega) (by rw [hb]; omega)
        refine ⟨{ bytesRead := min blockSize (t - o), currentOffset := o, isDone := false } :: l,
          c, ?_, hc⟩
        rw [hl]
        rfl
      · -- here t - o = blockSize, so the recursive call yields []
        have ht : o + blockSize = t := by omega
        refine ⟨[], { bytesRead := min blockSize (t - o), currentOffset := o, isDone := false },
          ?_, ?_⟩
        · have hrec : getFileContentAux fuel t (o + min blockSize (t - o)) = [] := by
            cases fuel with
            | zero => rfl
            | succ fuel => rw [getFileContentAux, if_pos (by rw [hb]; omega)]
          rw [hrec]
          rfl
        · show o + min blockSize (t - o) = t
          rw [hb]
          omega
    · rw [if_neg hb]
      refine ⟨[], _, rfl, ?_⟩
      show o + min blockSize (t - o) = t
      omega

/-- On a file whose remaining size is a positive exact multiple of the
block size, every yielded block is full-sized and not done. -/
theorem getFileContentAux_mult (fuel t : Nat) :
    ∀ o : Nat, (t - o) % blockSize = 0 →
      ∀ c ∈ getFileContentAux fuel t o, c.isDone = false ∧ c.bytesRead = blockSize := by
  induction fuel with
  | zero => intro o _ c h; simp [getFileContentAux] at h
  | succ fuel ih =>
    intro o hmod c h
    have h20 : blockSize = 20480 := rfl
    rw [h20] at hmod
    rw [getFileContentAux] at h
    by_cases ho : o ≥ t
    · rw [if_pos ho] at h; simp at h
    · rw [if_neg ho] at h
      have hbs : blockSize ≤ t - o := by rw [h20]; omega
      have hmin : min blockSize (t - o) = blockSize := by omega
      rw [if_pos hmin] at h
      rcases List.mem_cons.mp h with rfl | h2
      · exact ⟨rfl, hmin⟩
      · refine ih _ ?_ c h2
        rw [hmin, h20]
        omega

/-- With an all-successful PUT script, the offsets handed to the progress
callback are exactly the chunk offsets, in order. -/
theorem progressOffsets_uploadManualRun (chunks : List Chunk) :
    progressOffsets (uploadManualRun chunks allOk) =
      chunks.map (fun c => c.currentOffset) := by
  induction chunks with
  | nil => rfl
  | cons c cs ih =>
    show progressOffsets
        (UpEv.progress c.currentOffset :: UpEv.putEv c.currentOffset c.isDone (allOk 0) ::
          (if allOk 0 then
            (if c.isDone then
              UpEv.doneEv true :: uploadManualRun cs (fun i => allOk (i + 1))
            else uploadManualRun cs (fun i => allOk (i + 1)))
          else [UpEv.doneEv false])) = _
    by_cases hd : c.isDone
    · simp [allOk, hd, progressOffsets, List.filterMap_cons] at *
      exact ih
    · simp [allOk, hd, progressOffsets, List.filterMap_cons] at *
      exact ih

/-- With an all-successful PUT script, every chunk PUT is immediately
preceded by a progress event carrying the starting offset of the chunk. -/
theorem putsPreceded_uploadManualRun (chunks : List Chunk) :
    putsPreceded (uploadManualRun chunks allOk) = true := by
  induction chunks with
  | nil => rfl
  | cons c cs ih =>
    show putsPreceded
        (UpEv.progress c.currentOffset :: UpEv.putEv c.currentOffset c.isDone (allOk 0) ::
          (if allOk 0 then
            (if c.isDone then
              UpEv.doneEv true :: uploadManualRun cs (fun i => allOk (i + 1))
            else uploadManualRun cs (fun i => allOk (i + 1)))
          else [UpEv.doneEv false])) = true
    by_cases hd : c.isDone
    · simp [allOk, hd, putsPreceded] at *
      exact ih
    · simp [allOk, hd, putsPreceded] at *
      exact ih

/-- When no chunk is marked done and every PUT succeeds, the trace holds
no done-callback invocation and no PUT carrying `done=true`: the loop
runs off the end of the generator without ever settling the upload. -/
theorem uploadManualRun_no_done (chunks : List Chunk)
    (h : ∀ c ∈ chunks, c.isDone = false) :
    (uploadManualRun chunks allOk).all
      (fun e => !isDoneEv e && !isDoneTruePut e) = true := by
  induction chunks with
  | nil => rfl
  | cons c cs ih =>
    have hc : c.isDone = false := h c (List.mem_cons_self c cs)
    show (UpEv.progress c.currentOffset :: UpEv.putEv c.currentOffset c.isDone (allOk 0) ::
          (if allOk 0 then
            (if c.isDone then
              UpEv.doneEv true :: uploadManualRun cs (fun i => allOk (i + 1))
            else uploadManualRun cs (fun i => allOk (i + 1)))
          else [UpEv.doneEv false])).all _ = true
    have ih2 := ih (fun d hd => h d (List.mem_cons_of_mem c hd))
    simp only [allOk, hc, if_true, if_false, Bool.false_eq_true, List.all_cons]
    simp [isDoneEv, isDoneTruePut, hc] at ih2 ⊢
    exact ih2

/-! ## Lemmas about the supervisor and the recursive download -/

/-- An expiry at the head of the script makes `_listFiles` perform the
primitive call, exactly one re-authentication, and then a fresh run on
the remaining script. -/
theorem runLF_expired (creds : Creds) (s : List String) (rest : List PrimOutcome) :
    runLF creds s (PrimOutcome.expired :: rest) =
      (runLF creds s rest).map fun r =>
        (r.1, Ev.lsCall (currentPath s) ::
          Ev.authEv (creds.user.getD "") (creds.pass.getD "") :: r.2.1, r.2.2) :=
  rfl

/-- Replaying the trace pushes of `applyDEvs` is appending the pushed ids. -/
theorem applyDEvs_eq (evs : List DEv) :
    ∀ s : List String, applyDEvs s evs = s ++ pushIdsOf evs := by
  induction evs with
  | nil => intro s; simp [applyDEvs, pushIdsOf]
  | cons e rest ih =>
    intro s
    cases e with
    | push id =>
      show applyDEvs (s ++ [id]) rest = _
      rw [ih]
      simp [pushIdsOf, List.filterMap_cons]
    | mkdirL p =>
      show applyDEvs s rest = _
      rw [ih]
      simp [pushIdsOf, List.filterMap_cons]

/-- `pushIdsOf` distributes over trace concatenation. -/
theorem pushIdsOf_append (a b : List DEv) :
    pushIdsOf (a ++ b) = pushIdsOf a ++ pushIdsOf b := by
  simp [pushIdsOf, List.filterMap_append]

/-- A push event at the head of a trace contributes its id. -/
theorem pushIdsOf_push_cons (i : String) (l : List DEv) :
    pushIdsOf (DEv.push i :: l) = i :: pushIdsOf l := rfl

/-- A local-mkdir event at the head of a trace contributes no id. -/
theorem pushIdsOf_mkdir_cons (p : String) (l : List DEv) :
    pushIdsOf (DEv.mkdirL p :: l) = pushIdsOf l := rfl

/-- The local-directory-creation loop pushes nothing. -/
theorem pushIdsOf_mkdirEvs :
    ∀ (l : FTreeList) (p : String), pushIdsOf (mkdirEvs l p) = []
  | FTreeList.nil, _ => rfl
  | FTreeList.cons t rest, p => by
    show pushIdsOf (DEv.mkdirL (p ++ "/" ++ treeName t) :: mkdirEvs rest p) = []
    simp [pushIdsOf, List.filterMap_cons] at *
    have := pushIdsOf_mkdirEvs rest p
    simpa [pushIdsOf] using this

mutual
/-- `downloadFolder` pushes exactly the preorder id sequence of the tree. -/
theorem pushIdsOf_downloadFolderRun :
    ∀ (t : FTree) (p : String), pushIdsOf (downloadFolderRun t p) = preorderIds t
  | FTree.node id nm subs, p => by
    show pushIdsOf (DEv.push id :: (mkdirEvs subs p ++ downloadSubsRun subs p)) = _
    rw [preorderIds]
    simp only [pushIdsOf, List.filterMap_cons]
    rw [show (List.filterMap _ (mkdirEvs subs p ++ downloadSubsRun subs p)) =
      pushIdsOf (mkdirEvs subs p ++ downloadSubsRun subs p) from rfl]
    rw [pushIdsOf_append, pushIdsOf_mkdirEvs subs p,
      pushIdsOf_downloadSubsRun subs p]
    rfl
/-- The subfolder loop pushes the concatenated preorder id sequences. -/
theorem pushIdsOf_downloadSubsRun :
    ∀ (l : FTreeList) (p : String), pushIdsOf (downloadSubsRun l p) = preorderIdsList l
  | FTreeList.nil, _ => rfl
  | FTreeList.cons t rest, p => by
    show pushIdsOf (downloadFolderRun t (p ++ "/" ++ treeName t) ++ downloadSubsRun rest p) = _
    rw [pushIdsOf_append, pushIdsOf_downloadFolderRun t _,
      pushIdsOf_downloadSubsRun rest p, preorderIdsList]
end

/-- The first local directory the recursive download creates is the
top-level destination `basepath`. -/
theorem mkdirPathsOf_head (t : FTree) (base : String) (s : List String) :
    (mkdirPathsOf (recursiveDownloadFoldersRun t base s)).head? = some base := by
  show (mkdirPathsOf (DEv.push (treeId t) :: DEv.mkdirL base :: _)).head? = some base
  simp [mkdirPathsOf, List.filterMap_cons]

/-! ## The claims -/

/-- C1: the claim says that after 10 consecutive non-session failures the
supervisor raises a terminal error naming the action and that an 11th
attempt is never made.  The code differs twice.  Faithfully, line 704 of
part_000 reads the undeclared variable `attempt`, so every supervised
call rejects with a ReferenceError before the operation is attempted at
all (first conjunct).  With that debug-log guard elided, the bound check
`tryCounter > tryLimit` lets `tryCounter` reach 11 before stopping: after
11 consecutive failures the terminal error (whose own message says 10
times) is raised with 11 primitive calls in the trace (second conjunct),
and when the 10 failures are followed by a success the 11th attempt IS
made and succeeds (third conjunct). -/
theorem c1_retry_supervisor_eval :
    runSupJs 0 (List.replicate 11 PrimOutcome.err) = Except.error JsError.referenceError
    ∧ listFilesRun ⟨some "u", some "p"⟩ [] (List.replicate 11 PrimOutcome.err) =
        some (RetryOutcome.terminalError "tried to list files 10 times and failed", 11,
          List.replicate 11 (Ev.lsCall "root"))
    ∧ listFilesRun ⟨some "u", some "p"⟩ []
          (List.replicate 10 PrimOutcome.err ++ [PrimOutcome.ok []]) =
        some (RetryOutcome.data [], 11, List.replicate 11 (Ev.lsCall "root")) :=
  ⟨rfl, by decide, by decide⟩

/-- C2 counterexample: the claim says a session-expiry replay consumes one
slot of the shared 10-attempt ceiling.  On a script of 12 consecutive
expiries followed by a success, the supervised `listFiles` run succeeds
with a final `tryCounter` of 1 even though 12 re-authentication replays
were performed — replays consume no slot at all (had each consumed a
slot, 13 slots would have been needed and the run would have failed). -/
theorem c2_reauth_replay_cex :
    (listFilesRun ⟨some "u", some "p"⟩ []
        (List.replicate 12 PrimOutcome.expired ++ [PrimOutcome.ok []])).map
      (fun r => (r.1, r.2.1, authCount r.2.2)) =
      some (RetryOutcome.data [], 1, 12) := by
  decide

/-- C2 (amended): when a primitive reports session expiry, exactly one
re-authentication with the cached credentials is performed and the
original retryable operation is re-invoked from its start (the next trace
event is a fresh primitive call with a freshly resolved current folder);
the replay happens inside the same supervised attempt, so the result, the
final attempt count, and the rest of the trace are exactly those of a run
without the expiry — the replay consumes no slot of the 10-attempt
ceiling. -/
theorem c2_reauth_replay (fuel c : Nat) (creds : Creds) (s : List String)
    (rest : List PrimOutcome) (h : c ≤ 10) :
    runSup fuel c creds s (PrimOutcome.expired :: rest) =
      (runSup fuel c creds s rest).map fun r =>
        (r.1, r.2.1, Ev.lsCall (currentPath s) ::
          Ev.authEv (creds.user.getD "") (creds.pass.getD "") :: r.2.2) := by
  cases fuel with
  | zero => rfl
  | succ fuel =>
    rw [runSup, runSup, if_neg (by omega), if_neg (by omega), runLF_expired]
    cases h2 : runLF creds s rest with
    | none => rfl
    | some r =>
      obtain ⟨res, evs, rest2⟩ := r
      cases res with
      | some d => rfl
      | none =>
        cases h3 : runSup fuel (c + 1) creds s rest2 with
        | none => simp [h3]
        | some r2 => simp [h3]

/-- C2 witness: the amended claim at a concrete input — one expiry then
one success, starting from a fresh counter. -/
theorem c2_reauth_replay_witness :
    (0 : Nat) ≤ 10 ∧
    runSup 12 0 ⟨some "u", some "p"⟩ []
        (PrimOutcome.expired :: [PrimOutcome.ok []]) =
      (runSup 12 0 ⟨some "u", some "p"⟩ [] [PrimOutcome.ok []]).map fun r =>
        (r.1, r.2.1, Ev.lsCall (currentPath []) ::
          Ev.authEv ((⟨some "u", some "p"⟩ : Creds).user.getD "")
            ((⟨some "u", some "p"⟩ : Creds).pass.getD "") :: r.2.2) :=
  ⟨by decide, c2_reauth_replay 12 0 ⟨some "u", some "p"⟩ [] [PrimOutcome.ok []] (by decide)⟩

/-- C3: the claim says the low-level primitives never raise, even on a
transport error where no HTTP response exists.  In the code the callbacks
dereference `response.statusCode` before testing `error`, so exactly in
that case they throw a TypeError and the promise never settles (first two
conjuncts evaluate `ls` and `getFileSize` at such an input); whenever a
response does exist the callbacks return the tagged record with
`session = false` precisely when the status is 401 (last conjunct). -/
theorem c3_primitive_tagging :
    ls_callback (some "ECONNRESET") none = Except.error JsError.typeError
    ∧ getFileSize_callback (some "ECONNRESET") none 0 = Except.error JsError.typeError
    ∧ (∀ (e : Option String) (r : LsResponse), ∃ v : LsResult,
        ls_callback e (some r) = Except.ok v ∧ (v.session = false ↔ r.statusCode = 401)) := by
  refine ⟨rfl, rfl, ?_⟩
  intro e r
  simp only [ls_callback]
  by_cases h : r.statusCode = 401
  · rw [if_pos h]
    exact ⟨_, rfl, by simp [h]⟩
  · rw [if_neg h]
    by_cases he : e.isSome
    · rw [if_pos he]
      exact ⟨_, rfl, by simp [h]⟩
    · rw [if_neg he]
      cases r.files with
      | none => exact ⟨_, rfl, by simp [h]⟩
      | some items => exact ⟨_, rfl, by simp [h]⟩

/-- C4: the claim says a zero-byte upload completes with one 100% progress
event and one done notification and no chunk PUT.  In the code the
generator yields nothing for a zero-byte file, so the upload loop runs
zero iterations: no PUT is issued, but also no progress event and no
done-callback invocation ever happens — `_uploadFile` (whose own
`totalSize == 0` branch anticipates reporting 100%) resolves only inside
the done callback, so its promise never settles. -/
theorem c4_zero_byte_upload :
    getFileContent 0 = [] ∧ uploadManualRun (getFileContent 0) allOk = [] := by
  decide

/-- C5: for a file whose size is a positive exact multiple of the
20480-byte block size, every yielded block is full-sized with the done
flag false, and the upload trace (all PUTs succeeding) holds no PUT with
`done=true` and no done-callback invocation — the promise of the upload
never settles. -/
theorem c5_exact_multiple_upload (n : Nat) (_h1 : 0 < n) (h2 : n % blockSize = 0) :
    (∀ c ∈ getFileContent n, c.isDone = false ∧ c.bytesRead = blockSize)
    ∧ (uploadManualRun (getFileContent n) allOk).all
        (fun e => !isDoneEv e && !isDoneTruePut e) = true := by
  have hall : ∀ c ∈ getFileContent n, c.isDone = false ∧ c.bytesRead = blockSize := by
    apply getFileContentAux_mult
    simpa using h2
  exact ⟨hall, uploadManualRun_no_done _ (fun c hc => (hall c hc).1)⟩

/-- C5 witness: the theorem applied at the concrete size 20480. -/
theorem c5_exact_multiple_upload_witness :
    0 < 20480 ∧ 20480 % blockSize = 0 ∧
    (uploadManualRun (getFileContent 20480) allOk).all
      (fun e => !isDoneEv e && !isDoneTruePut e) = true :=
  ⟨by decide, by decide, (c5_exact_multiple_upload 20480 (by decide) (by decide)).2⟩

/-- C6 counterexample: the claim says the progress callback is invoked
AFTER each successful chunk PUT with the offset as of the start of that
chunk.  For a 20481-byte file with every PUT succeeding, the concrete
trace shows each progress event fired before its PUT, and no successful
PUT is followed by a progress event carrying the starting offset of the
chunk it sent. -/
theorem c6_upload_progress_cex :
    uploadManualRun (getFileContent 20481) allOk =
      [UpEv.progress 0, UpEv.putEv 0 false true, UpEv.progress 20480,
       UpEv.putEv 20480 true true, UpEv.doneEv true]
    ∧ progressAfterPuts (uploadManualRun (getFileContent 20481) allOk) = false := by
  decide

/-- C6 (amended): for every upload of a file larger than the 20480-byte
chunk size with all PUTs succeeding, the progress callback is invoked
immediately BEFORE each chunk PUT with the cumulative byte offset as of
the start of that chunk; the reported offsets are non-decreasing and the
final event carries the file size minus the size of the final chunk. -/
theorem c6_upload_progress (n : Nat) (h : blockSize < n) :
    putsPreceded (uploadManualRun (getFileContent n) allOk) = true
    ∧ List.Pairwise (· ≤ ·) (progressOffsets (uploadManualRun (getFileContent n) allOk))
    ∧ ∃ c : Chunk, (getFileContent n).getLast? = some c
        ∧ (progressOffsets (uploadManualRun (getFileContent n) allOk)).getLast? =
            some (n - c.bytesRead) := by
  refine ⟨putsPreceded_uploadManualRun _, ?_, ?_⟩
  · rw [progressOffsets_uploadManualRun]
    exact List.Pairwise.map _ (fun a b hab => hab) (getFileContentAux_pairwise _ n 0)
  · obtain ⟨l, c, hl, hc⟩ := getFileContentAux_concat (n + 1) n 0 (by omega) (by omega)
    refine ⟨c, ?_, ?_⟩
    · show (getFileContentAux (n + 1) n 0).getLast? = some c
      rw [hl, List.getLast?_concat]
    · rw [progressOffsets_uploadManualRun]
      show ((getFileContentAux (n + 1) n 0).map _).getLast? = _
      rw [hl, List.map_append]
      simp only [List.map_cons, List.map_nil]
      rw [List.getLast?_concat]
      have : c.currentOffset = n - c.bytesRead := by omega
      rw [this]

/-- C6 witness: the amended theorem applied at the concrete size 20481. -/
theorem c6_upload_progress_witness :
    blockSize < 20481
    ∧ putsPreceded (uploadManualRun (getFileContent 20481) allOk) = true
    ∧ List.Pairwise (· ≤ ·) (progressOffsets (uploadManualRun (getFileContent 20481) allOk)) :=
  ⟨by decide, (c6_upload_progress 20481 (by decide)).1, (c6_upload_progress 20481 (by decide)).2.1⟩

/-- C7: the claim says a zero-byte download completes with a single 100%
progress event and creates an empty destination file.  In the code the
progress callback and `fs.appendFileSync` run only inside data events,
and a zero-byte stream produces none: `dwl` resolves success with an
empty progress list and an empty append list (the destination file is
never written, hence never created), and the percentage wrapper of
`_downloadFile` (whose `total == 0` branch anticipates reporting 100%)
never runs. -/
theorem c7_zero_byte_download :
    dwlRun (some 0) 200 [] = ([], [], some ⟨some true, true⟩)
    ∧ downloadPercents (some 0) 200 [] = [] := by
  decide

/-- C8 counterexample: the claim says the virtual path stack is restored
to exactly its pre-call position after a recursive folder download.
Starting from the stack `[A]` and downloading the childless remote folder
`S`, the stack afterwards is `[A, S, S, A]` — `downloadFolder` never pops,
and the final `enterDirectory` pushes a fresh copy of the saved id
instead of restoring the old shape. -/
theorem c8_stack_restore_cex :
    applyDEvs ["A"]
        (recursiveDownloadFoldersRun (FTree.node "S" "s" FTreeList.nil) "dst" ["A"]) =
      ["A", "S", "S", "A"]
    ∧ ["A", "S", "S", "A"] ≠ ["A"] := by
  constructor
  · rfl
  · decide

/-- C8 (amended): for every recursive folder download that completes, the
top-level destination directory is the first local directory created, and
the path stack afterwards is the pre-call stack extended by the source
folder id, the preorder id sequence of the downloaded tree, and (when the
pre-call stack was nonempty) a fresh copy of the pre-call current folder —
so the current folder at the top is restored whenever the pre-call stack
was nonempty, but the stack is strictly deeper, not restored to its
pre-call position. -/
theorem c8_stack_restore (t : FTree) (base : String) (s : List String) (h : s ≠ []) :
    applyDEvs s (recursiveDownloadFoldersRun t base s) =
      s ++ treeId t :: preorderIds t ++ (getCurrentFolder s).toList
    ∧ getCurrentFolder (applyDEvs s (recursiveDownloadFoldersRun t base s)) =
        getCurrentFolder s
    ∧ (mkdirPathsOf (recursiveDownloadFoldersRun t base s)).head? = some base := by
  obtain ⟨c, hc⟩ : ∃ c, getCurrentFolder s = some c := by
    rw [getCurrentFolder_eq_getLast?]
    exact Option.isSome_iff_exists.mp (List.getLast?_isSome.mpr h)
  have hmain : applyDEvs s (recursiveDownloadFoldersRun t base s) =
      s ++ treeId t :: preorderIds t ++ [c] := by
    rw [applyDEvs_eq]
    show s ++ pushIdsOf (DEv.push (treeId t) :: DEv.mkdirL base :: downloadFolderRun t base
        ++ (match getCurrentFolder s with
            | some c => [DEv.push c]
            | none => [])) = _
    rw [hc]
    rw [pushIdsOf_append, pushIdsOf_push_cons, pushIdsOf_mkdir_cons,
      pushIdsOf_downloadFolderRun t base]
    simp [pushIdsOf]
  refine ⟨by rw [hmain, hc]; rfl, ?_, mkdirPathsOf_head t base s⟩
  rw [hmain, hc, getCurrentFolder_eq_getLast?]
  show ((s ++ treeId t :: preorderIds t) ++ [c]).getLast? = some c
  rw [List.getLast?_concat]

/-- C8 witness: the amended theorem applied to a two-level tree starting
from the nonempty stack `[A]`. -/
theorem c8_stack_restore_witness :
    (["A"] : List String) ≠ []
    ∧ getCurrentFolder (applyDEvs ["A"] (recursiveDownloadFoldersRun
        (FTree.node "S" "s" (FTreeList.cons (FTree.node "T" "t" FTreeList.nil) FTreeList.nil))
        "dst" ["A"])) = getCurrentFolder ["A"]
    ∧ (mkdirPathsOf (recursiveDownloadFoldersRun
        (FTree.node "S" "s" (FTreeList.cons (FTree.node "T" "t" FTreeList.nil) FTreeList.nil))
        "dst" ["A"])).head? = some "dst" :=
  ⟨by decide,
   (c8_stack_restore
      (FTree.node "S" "s" (FTreeList.cons (FTree.node "T" "t" FTreeList.nil) FTreeList.nil))
      "dst" ["A"] (by decide)).2.1,
   (c8_stack_restore
      (FTree.node "S" "s" (FTreeList.cons (FTree.node "T" "t" FTreeList.nil) FTreeList.nil))
      "dst" ["A"] (by decide)).2.2⟩

/-- C9 counterexample: the claim says the get-current-folder operation
returns the sentinel string `root` when the stack is empty; the code
returns `undefined` (the root-defaulting is inlined at the call sites of
the retryable operations instead). -/
theorem c9_current_folder_cex : getCurrentFolder [] ≠ some "root" := by
  decide

/-- C9 (amended): for every state of the virtual path stack, the
get-current-folder operation returns the identifier at the top of the
stack, and returns `undefined` (not the sentinel `root`) when the stack
is empty; pushing an id makes it the current folder. -/
theorem c9_current_folder :
    getCurrentFolder [] = none
    ∧ (∀ s : List String, getCurrentFolder s = s.getLast?)
    ∧ (∀ (s : List String) (id : String),
        getCurrentFolder (enterDirectory (some id) s) = some id) := by
  refine ⟨rfl, getCurrentFolder_eq_getLast?, ?_⟩
  intro s id
  rw [getCurrentFolder_eq_getLast?]
  show (s ++ [id]).getLast? = some id
  rw [List.getLast?_concat]

/-- C10 counterexample: the claim says the credentials are cached only
after the first successful authentication call, so a failed call does not
overwrite them.  A failed call (HTTP 401) with fresh credentials returns
false and leaves the token unchanged, yet the cached credentials have
been overwritten before the login attempt. -/
theorem c10_credential_caching_cex :
    authenticate "newuser" "newpass" none (some 401) "tok"
        ⟨some "olduser", some "oldpass"⟩ ⟨some "Bearer old"⟩ =
      (⟨some "newuser", some "newpass"⟩, Except.ok (false, ⟨some "Bearer old"⟩))
    ∧ (⟨some "newuser", some "newpass"⟩ : Creds) ≠ ⟨some "olduser", some "oldpass"⟩ := by
  constructor
  · rfl
  · decide

/-- C10 (amended): a failed authentication attempt with HTTP 401 returns
false without raising and leaves the stored session token unchanged,
while a transport error with no HTTP response raises a TypeError in the
login callback instead of returning false; in both cases the
username/password are cached unconditionally before the login attempt, so
every call — failed or not — overwrites the cached credentials. -/
theorem c10_credential_caching :
    ∀ (u p idToken : String) (creds : Creds) (tokens : Tokens),
      authenticate u p none (some 401) idToken creds tokens =
        (⟨some u, some p⟩, Except.ok (false, tokens))
      ∧ ∀ e : String, authenticate u p (some e) none idToken creds tokens =
          (⟨some u, some p⟩, Except.error JsError.typeError) := by
  intro u p idToken creds tokens
  exact ⟨rfl, fun e => rfl⟩
